import Mathlib

/-!
# Verification of `memory_tracer.py` (`MemoryTracer`)

Shallow embedding of the `MemoryTracer` class from `src/memory_tracer.py`.

The tracer manages the lifecycle of the process-wide allocation tracking
facility (`tracemalloc` in the source), takes snapshots, and emits comparison
reports through a logger. We model:

* the tracer instance state (`MemoryTracer`: config fields plus the two
  snapshot fields `_start` and `_prev`);
* the process-wide state of the allocation tracking facility (`TM`):
  whether it is tracing, plus a stream of snapshots that successive
  `take_snapshot` calls return (the environment chooses the stream);
* every observable interaction with a collaborator (logger, garbage
  collector, tracking facility) as an `Effect` appended to an effect trace;
* raised exceptions as `Except PyError`.

The allocation tracking facility itself (`tracemalloc`) is an external
collaborator, out of scope of the repository; its snapshot statistics and
comparison operations are modelled concretely below (grouping traces by an
attribution key, summing sizes, counting, sorting by descending size),
following the collaborator contract of the spec (§6) and the documented
`tracemalloc` behaviour the source relies on.
-/

/-- One stack frame of an allocation traceback: source file and line. -/
structure Frame where
  filename : String
  lineno : Nat
deriving DecidableEq, Repr

/-- One raw allocation trace in a snapshot: its traceback (most recent frame
first, limited by the facility to the configured frame depth) and its size in
bytes.  Statistics functions group these and count them. -/
structure AllocTrace where
  traceback : List Frame
  size : Nat
deriving DecidableEq, Repr

/-- A snapshot of currently-live allocations: a list of raw traces. -/
abbrev Snapshot := List AllocTrace

/-- Grouping key accepted by `statistics` / `compare_to`:
`"filename"`, `"lineno"` or `"traceback"` in the source. -/
inductive GroupKey where
  | filename
  | lineno
  | traceback
deriving DecidableEq, Repr

/-- Attribution of a statistics row: a file, a file+line, or a full stack. -/
inductive Attribution where
  | file (filename : String)
  | line (filename : String) (lineno : Nat)
  | stack (frames : List Frame)
deriving DecidableEq, Repr

/-- The attribution of a raw trace under a grouping key (the facility uses the
most recent frame for `filename`/`lineno` grouping, the full traceback for
`traceback` grouping). -/
def attrOf (k : GroupKey) (tr : AllocTrace) : Attribution :=
  match k with
  | .filename =>
    match tr.traceback.head? with
    | some f => .file f.filename
    | none => .file ""
  | .lineno =>
    match tr.traceback.head? with
    | some f => .line f.filename f.lineno
    | none => .line "" 0
  | .traceback => .stack tr.traceback

/-- The frames of an attribution (used to format the traceback of a
`traceback`-grouped statistic, as `stat.traceback.format()` does). -/
def attrFrames : Attribution → List Frame
  | .file f => [⟨f, 0⟩]
  | .line f l => [⟨f, l⟩]
  | .stack fs => fs

/-- One aggregated statistics row: attribution, total size, allocation count. -/
structure Statistic where
  attr : Attribution
  size : Nat
  count : Nat
deriving DecidableEq, Repr

/-- One comparison row between two snapshots: attribution, size delta and
count delta (new minus old), plus the absolute size/count in the new
snapshot. -/
structure StatDiff where
  attr : Attribution
  sizeDiff : Int
  countDiff : Int
  size : Nat
  count : Nat
deriving DecidableEq, Repr

/-- Fold one raw trace into an association list of aggregated statistics. -/
def addTrace (acc : List Statistic) (a : Attribution) (sz : Nat) : List Statistic :=
  match acc with
  | [] => [⟨a, sz, 1⟩]
  | s :: rest =>
    if s.attr = a then ⟨a, s.size + sz, s.count + 1⟩ :: rest
    else s :: addTrace rest a sz

/-- Model of `Snapshot.statistics(key)` of the allocation tracking facility: group the
raw traces by their attribution under `k`, sum sizes, count traces, and sort
by descending size. -/
def Snapshot.statistics (snap : Snapshot) (k : GroupKey) : List Statistic :=
  let grouped := snap.foldl (fun acc tr => addTrace acc (attrOf k tr) tr.size) []
  List.insertionSort (fun a b : Statistic => b.size ≤ a.size) grouped

/-- Model of `new.compare_to(old, key)` of the allocation tracking facility: diff the
grouped statistics of the two snapshots (groups present only in `old` appear
with negative deltas), sorted by descending size delta. -/
def Snapshot.compare_to (new old : Snapshot) (k : GroupKey) : List StatDiff :=
  let ns := new.statistics k
  let os := old.statistics k
  let fromNew : List StatDiff := ns.map (fun s =>
    match os.find? (fun o => o.attr = s.attr) with
    | some o => ⟨s.attr, (s.size : Int) - (o.size : Int),
                 (s.count : Int) - (o.count : Int), s.size, s.count⟩
    | none => ⟨s.attr, (s.size : Int), (s.count : Int), s.size, s.count⟩)
  let fromOldOnly : List StatDiff := os.filterMap (fun o =>
    if ns.any (fun s => s.attr = o.attr) then none
    else some ⟨o.attr, -(o.size : Int), -(o.count : Int), 0, 0⟩)
  List.insertionSort (fun a b : StatDiff => b.sizeDiff ≤ a.sizeDiff)
    (fromNew ++ fromOldOnly)

/-- The size of a traceback statistic rendered in KiB with one decimal place,
as `"%.1f" % (size / 1024)` does in the source: `size / 1024` is exactly
representable (binary scaling), and `%.1f` rounds to the nearest tenth with
ties to even. -/
def formatSizeKiB (sizeBytes : Nat) : String :=
  let n := sizeBytes * 10
  let q := n / 1024
  let r := n % 1024
  let tenths := if 1024 < 2 * r then q + 1
    else if 2 * r < 1024 then q
    else if q % 2 = 0 then q else q + 1
  toString (tenths / 10) ++ "." ++ toString (tenths % 10)

/-- A structured log message, one constructor per `self.log(...)` call site of
the source.  Report messages carry the enumerated rows they render. -/
inductive LogEvent where
  | startingTracer
  | stoppedTracer
  | cumulativeStats (rows : List (Nat × StatDiff))
  | incrementalStats (rows : List (Nat × StatDiff))
  | currentStats (rows : List (Nat × Statistic))
  | traceReport (count : Nat) (sizeKiB : String) (tb : List Frame)
deriving DecidableEq, Repr

/-- One observable interaction with a collaborator. -/
inductive Effect where
  | log (e : LogEvent)
  | gcCollect
  | tmStart (nframe : Nat)
  | tmTakeSnapshot
  | tmStop
deriving DecidableEq, Repr

/-- Exceptions the embedded code can raise. -/
inductive PyError where
  /-- The `RuntimeError("Cannot start to trace when already tracing")`. -/
  | alreadyTracing
  /-- Raised by `tracemalloc.take_snapshot()` because tracing is not active. -/
  | notTracing
  /-- Raised because `compare_to` was called with `None` (`_start`/`_prev` unset). -/
  | attributeNone
deriving DecidableEq, Repr

/-- Process-wide state of the allocation tracking facility: whether it is
tracing, and the stream of snapshots successive `take_snapshot` calls return
(`snapStream snapIdx` is the next one). -/
structure TM where
  tracing : Bool
  snapStream : Nat → Snapshot
  snapIdx : Nat

/-- The state of a `MemoryTracer` instance: the constructor configuration
plus the two snapshot fields. -/
structure MemoryTracer where
  top : Nat
  trace : Nat
  nframe : Nat
  gccollect : Bool
  disabled : Bool
  _start : Option Snapshot
  _prev : Option Snapshot
deriving DecidableEq, Repr

/-- Constructor `MemoryTracer(top=20, trace=1, nframe=25, gccollect=True, disabled=False)`:
construction performs no side effects; both snapshot fields start `None`. -/
def MemoryTracer.mk' (top : Nat := 20) (trace : Nat := 1) (nframe : Nat := 25)
    (gccollect : Bool := true) (disabled : Bool := false) : MemoryTracer :=
  ⟨top, trace, nframe, gccollect, disabled, none, none⟩

/-- Method `_format_stats`: rank each row with a 1-based index, as
`enumerate(stats, 1)` does (string rendering kept structural). -/
def MemoryTracer._format_stats (stats : List α) : List (Nat × α) :=
  stats.enumFrom 1

/-- Method `MemoryTracer.start`.  The first component of a successful result is the
Python return value: `some self` on the disabled early return, `none`
(Python `None`) when the enabled body runs to completion. -/
def MemoryTracer.start (t : MemoryTracer) (w : TM) :
    Except PyError (Option MemoryTracer × MemoryTracer × TM × List Effect) :=
  if t.disabled then .ok (some t, t, w, [])
  else if w.tracing then .error .alreadyTracing
  else
    let s := w.snapStream w.snapIdx
    .ok (none,
         { t with _start := some s, _prev := some s },
         { w with tracing := true, snapIdx := w.snapIdx + 1 },
         [.log .startingTracer, .tmStart t.nframe, .tmTakeSnapshot])

/-- Method `MemoryTracer.stop`: a total function — it never raises. -/
def MemoryTracer.stop (t : MemoryTracer) (w : TM) :
    MemoryTracer × TM × List Effect :=
  if t.disabled then (t, w, [])
  else
    ({ t with _start := none, _prev := none },
     { w with tracing := false },
     [.tmStop, .log .stoppedTracer])

/-- The effect trace of one successful enabled `update` call, given the
baseline `s0`, the previous snapshot `prev` and the snapshot `current` taken
in this call. -/
def updateEffects (t : MemoryTracer) (s0 prev current : Snapshot) : List Effect :=
  (if t.gccollect then [Effect.gcCollect] else [])
  ++ [Effect.tmTakeSnapshot,
      Effect.log (.cumulativeStats (MemoryTracer._format_stats
        ((current.compare_to s0 .filename).take t.top))),
      Effect.log (.incrementalStats (MemoryTracer._format_stats
        ((current.compare_to prev .lineno).take t.top))),
      Effect.log (.currentStats (MemoryTracer._format_stats
        ((current.statistics .filename).take t.top)))]
  ++ ((current.statistics .traceback).take t.trace).map (fun st =>
      Effect.log (.traceReport st.count (formatSizeKiB st.size)
        (attrFrames st.attr)))

/-- Method `MemoryTracer.update`. -/
def MemoryTracer.update (t : MemoryTracer) (w : TM) :
    Except PyError (MemoryTracer × TM × List Effect) :=
  if t.disabled then .ok (t, w, [])
  else if w.tracing then
    match t._start, t._prev with
    | some s0, some prev =>
      let current := w.snapStream w.snapIdx
      .ok ({ t with _prev := some current },
           { w with snapIdx := w.snapIdx + 1 },
           updateEffects t s0 prev current)
    | _, _ => .error .attributeNone
  else .error .notTracing

/-- Method `__enter__`: calls `start` and returns `self`. -/
def MemoryTracer.enter (t : MemoryTracer) (w : TM) :
    Except PyError (MemoryTracer × TM × List Effect) :=
  match t.start w with
  | .error e => .error e
  | .ok (_, t1, w1, effs) => .ok (t1, w1, effs)

/-- Method `__exit__`: calls `stop` regardless of any exception raised in the body. -/
def MemoryTracer.exitScope (t : MemoryTracer) (w : TM) :
    MemoryTracer × TM × List Effect :=
  t.stop w

/-- Outcome of running the tracer as a scoped resource (`with` statement). -/
inductive WithResult where
  /-- Entering (that is, `start`) raised: the body never ran and
  `__exit__` was not called. -/
  | startFailed (e : PyError)
  /-- The scope was entered and exited; `bodyErr` is the exception the body
  raised, if any (re-raised after `__exit__` ran). -/
  | finished (bodyErr : Option PyError) (t : MemoryTracer) (w : TM)
      (effs : List Effect)

/-- The tracer used as a scoped resource: enter the scope (`start`), run the
body — which may itself raise, returning the tracer and world state at the
point of the raise — then leave the scope (`stop`) on every exit path. -/
def withMemoryTracer (t : MemoryTracer) (w : TM)
    (body : MemoryTracer → TM → Option PyError × MemoryTracer × TM × List Effect) :
    WithResult :=
  match t.enter w with
  | .error e => .startFailed e
  | .ok (t1, w1, e1) =>
    let r := body t1 w1
    let r2 := r.2.1.exitScope r.2.2.1
    .finished r.1 r2.1 r2.2.1 (e1 ++ r.2.2.2 ++ r2.2.2)

/-- Runs `N` consecutive `update()` calls, collecting each call's effect trace. -/
def runUpdates : Nat → MemoryTracer → TM →
    Except PyError (MemoryTracer × TM × List (List Effect))
  | 0, t, w => .ok (t, w, [])
  | n + 1, t, w =>
    match t.update w with
    | .error e => .error e
    | .ok (t1, w1, effs) =>
      match runUpdates n t1 w1 with
      | .error e => .error e
      | .ok (t2, w2, effss) => .ok (t2, w2, effs :: effss)

/-! ## Basic lemmas -/

instance : IsTotal Statistic (fun a b => b.size ≤ a.size) :=
  ⟨fun a b => Nat.le_total b.size a.size⟩

instance : IsTrans Statistic (fun a b => b.size ≤ a.size) :=
  ⟨fun _ _ _ hab hbc => Nat.le_trans hbc hab⟩

instance : IsTotal StatDiff (fun a b => b.sizeDiff ≤ a.sizeDiff) :=
  ⟨fun a b => Int.le_total b.sizeDiff a.sizeDiff⟩

instance : IsTrans StatDiff (fun a b => b.sizeDiff ≤ a.sizeDiff) :=
  ⟨fun _ _ _ hab hbc => Int.le_trans hbc hab⟩

/-- The rows of `statistics` are sorted by descending size. -/
theorem Snapshot.statistics_sorted (snap : Snapshot) (k : GroupKey) :
    (snap.statistics k).Sorted (fun a b => b.size ≤ a.size) :=
  List.sorted_insertionSort _ _

/-- The rows of `compare_to` are sorted by descending size delta. -/
theorem Snapshot.compare_to_sorted (new old : Snapshot) (k : GroupKey) :
    (new.compare_to old k).Sorted (fun a b => b.sizeDiff ≤ a.sizeDiff) :=
  List.sorted_insertionSort _ _

/-- The function `updateEffects` only reads the configuration fields of the tracer. -/
theorem updateEffects_set_prev (t : MemoryTracer) (x : Option Snapshot)
    (a b c : Snapshot) :
    updateEffects { t with _prev := x } a b c = updateEffects t a b c := rfl

/-- Full characterisation of one successful enabled `update` call: the new
snapshot is the next element of the stream, `_start` is untouched, `_prev`
becomes the new snapshot, and the effect trace is `updateEffects`. -/
theorem MemoryTracer.update_spec (t : MemoryTracer) (w : TM) (s0 prev : Snapshot)
    (hd : t.disabled = false) (htr : w.tracing = true)
    (hs : t._start = some s0) (hp : t._prev = some prev) :
    t.update w = .ok ({ t with _prev := some (w.snapStream w.snapIdx) },
                      { w with snapIdx := w.snapIdx + 1 },
                      updateEffects t s0 prev (w.snapStream w.snapIdx)) := by
  simp [MemoryTracer.update, hd, htr, hs, hp]

/-- Full characterisation of `N` consecutive successful enabled `update`
calls after a state where `_start = s0` and `_prev = prev`: all calls
succeed, the configuration and `_start` are unchanged, `_prev` ends at the
last snapshot taken, and the `k`-th call's effect trace is `updateEffects`
with the `k`-th snapshot of the stream as `current` and the `(k-1)`-th (or
`prev` for `k = 0`) as the previous snapshot. -/
theorem runUpdates_spec (N : Nat) :
    ∀ (t : MemoryTracer) (w : TM) (s0 prev : Snapshot),
    t.disabled = false → w.tracing = true →
    t._start = some s0 → t._prev = some prev →
    ∃ tN wN effss,
      runUpdates N t w = .ok (tN, wN, effss) ∧
      tN.top = t.top ∧ tN.trace = t.trace ∧ tN.nframe = t.nframe ∧
      tN.gccollect = t.gccollect ∧ tN.disabled = false ∧
      tN._start = some s0 ∧
      tN._prev = some (if N = 0 then prev else w.snapStream (w.snapIdx + N - 1)) ∧
      wN.tracing = true ∧ wN.snapStream = w.snapStream ∧
      wN.snapIdx = w.snapIdx + N ∧
      effss.length = N ∧
      ∀ k, k < N → effss[k]? =
        some (updateEffects t s0
          (if k = 0 then prev else w.snapStream (w.snapIdx + k - 1))
          (w.snapStream (w.snapIdx + k))) := by
  induction N with
  | zero =>
    intro t w s0 prev hd htr hs hp
    refine ⟨t, w, [], rfl, rfl, rfl, rfl, rfl, hd, hs, by simpa using hp,
      htr, rfl, rfl, rfl, ?_⟩
    intro k hk
    omega
  | succ n ih =>
    intro t w s0 prev hd htr hs hp
    have hu := MemoryTracer.update_spec t w s0 prev hd htr hs hp
    obtain ⟨tN, wN, effss, hrun, htop, htrc, hnf, hgc, hdN, hsN, hpN, htrN,
        hstream, hidx, hlen, heff⟩ :=
      ih { t with _prev := some (w.snapStream w.snapIdx) }
        { w with snapIdx := w.snapIdx + 1 } s0 (w.snapStream w.snapIdx)
        hd htr hs rfl
    have htop' : tN.top = t.top := htop
    have htrc' : tN.trace = t.trace := htrc
    have hnf' : tN.nframe = t.nframe := hnf
    have hgc' : tN.gccollect = t.gccollect := hgc
    have hpN' : tN._prev = some (if n = 0 then w.snapStream w.snapIdx
        else w.snapStream (w.snapIdx + 1 + n - 1)) := hpN
    have hstream' : wN.snapStream = w.snapStream := hstream
    have hidx' : wN.snapIdx = w.snapIdx + 1 + n := hidx
    have heff' : ∀ k, k < n → effss[k]? =
        some (updateEffects t s0
          (if k = 0 then w.snapStream w.snapIdx
           else w.snapStream (w.snapIdx + 1 + k - 1))
          (w.snapStream (w.snapIdx + 1 + k))) := fun k hk => heff k hk
    refine ⟨tN, wN, updateEffects t s0 prev (w.snapStream w.snapIdx) :: effss,
      ?_, htop', htrc', hnf', hgc', hdN, hsN, ?_, htrN, hstream',
      by rw [hidx']; omega, by simpa using hlen, ?_⟩
    · simp [runUpdates, hu, hrun]
    · rcases Nat.eq_zero_or_pos n with hn | hn
      · subst hn
        simpa using hpN'
      · rw [hpN', if_neg (by omega : ¬ n = 0), if_neg (by omega : ¬ n + 1 = 0)]
        exact congrArg some (congrArg w.snapStream (by omega))
    · intro k hk
      match k with
      | 0 =>
        rw [List.getElem?_cons_zero]
        simp
      | j + 1 =>
        have hj : j < n := by omega
        have h := heff' j hj
        rw [List.getElem?_cons_succ, h]
        rcases Nat.eq_zero_or_pos j with hj0 | hj0
        · subst hj0
          rfl
        · rw [if_neg (by omega : ¬ j = 0), if_neg (by omega : ¬ j + 1 = 0)]
          have e1 : w.snapIdx + 1 + j - 1 = w.snapIdx + (j + 1) - 1 := by omega
          have e2 : w.snapIdx + 1 + j = w.snapIdx + (j + 1) := by omega
          rw [e1, e2]

/-! ## Concrete example states (used by the witnesses) -/

def fAEx : Frame := ⟨"a.py", 3⟩

def fBEx : Frame := ⟨"b.py", 7⟩

/-- A small snapshot: three live allocations in two files. -/
def snapEx : Snapshot := [⟨[fAEx], 100⟩, ⟨[fBEx], 2048⟩, ⟨[fAEx], 50⟩]

/-- A later snapshot: the `b.py` allocation grew and a nested call site
appeared. -/
def snapEx2 : Snapshot := [⟨[fAEx], 100⟩, ⟨[fBEx], 4096⟩, ⟨[fAEx], 50⟩, ⟨[fBEx, fAEx], 10⟩]

/-- The snapshot stream the environment serves: `snapEx` first, then
`snapEx2` forever. -/
def streamEx : Nat → Snapshot := fun n => if n = 0 then snapEx else snapEx2

/-- A fresh enabled tracer (`top=2, trace=1`). -/
def tEx : MemoryTracer := ⟨2, 1, 25, true, false, none, none⟩

/-- The world before any tracing. -/
def wEx : TM := ⟨false, streamEx, 0⟩

/-- The tracer state right after a successful `start` in `wEx`. -/
def t1Ex : MemoryTracer := ⟨2, 1, 25, true, false, some snapEx, some snapEx⟩

/-- The world right after that `start`. -/
def w1Ex : TM := ⟨true, streamEx, 1⟩

/-- A disabled tracer. -/
def tDisEx : MemoryTracer := ⟨2, 1, 25, true, true, none, none⟩

/-- A tracer with `gccollect=False`. -/
def tNoGcEx : MemoryTracer := ⟨2, 1, 25, false, false, some snapEx, some snapEx⟩

/-- A scope body that raises immediately. -/
def bodyEx : MemoryTracer → TM → Option PyError × MemoryTracer × TM × List Effect :=
  fun t1 w1 => (some .notTracing, t1, w1, [])

/-! ## Claims -/

/-- C3: Exclusive session — for an enabled tracer, `start()` while the
allocation tracking facility is already active raises `AlreadyTracingError`
(the `RuntimeError` of the source); since the result is the bare error, no
facility engagement, no effect and no state change happens.  Moreover, after
any successful enabled `start()`, a second `start()` of any enabled tracer
without an intervening `stop()` raises it. -/
theorem C3_exclusive_session (t : MemoryTracer) (w : TM)
    (hd : t.disabled = false) :
    (w.tracing = true → t.start w = .error .alreadyTracing) ∧
    (∀ r t1 w1 effs, t.start w = .ok (r, t1, w1, effs) →
      ∀ t2 : MemoryTracer, t2.disabled = false →
        t2.start w1 = .error .alreadyTracing) := by
  constructor
  · intro htr
    simp [MemoryTracer.start, hd, htr]
  · intro r t1 w1 effs h t2 hd2
    by_cases htr : w.tracing
    · simp [MemoryTracer.start, hd, htr] at h
    · simp [MemoryTracer.start, hd, htr] at h
      obtain ⟨-, -, hw1, -⟩ := h
      simp [MemoryTracer.start, hd2, ← hw1]

/-- Witness for C3 at a concrete tracer and world. -/
theorem C3_exclusive_session_witness :
    t1Ex.start w1Ex = .error .alreadyTracing ∧
    (∀ r t1 w1 effs, tEx.start wEx = .ok (r, t1, w1, effs) →
      ∀ t2 : MemoryTracer, t2.disabled = false →
        t2.start w1 = .error .alreadyTracing) :=
  ⟨(C3_exclusive_session t1Ex w1Ex rfl).1 rfl,
   (C3_exclusive_session tEx wEx rfl).2⟩

/-- C4: Lenient stop — `stop` is a total function of the model (it can
never raise, whatever the prior call sequence led to `t` and `w`), and for
an enabled tracer it clears both snapshot fields, disengages the allocation
tracking facility, and emits the stop interaction. -/
theorem C4_lenient_stop (t : MemoryTracer) (w : TM) (hd : t.disabled = false) :
    (t.stop w).1._start = none ∧ (t.stop w).1._prev = none ∧
    (t.stop w).2.1.tracing = false ∧ Effect.tmStop ∈ (t.stop w).2.2 := by
  simp [MemoryTracer.stop, hd]

/-- Witness for C4: stopping an enabled tracer in a world where no session
is active (the lenient case). -/
theorem C4_lenient_stop_witness :
    (tEx.stop wEx).1._start = none ∧ (tEx.stop wEx).1._prev = none ∧
    (tEx.stop wEx).2.1.tracing = false ∧ Effect.tmStop ∈ (tEx.stop wEx).2.2 :=
  C4_lenient_stop tEx wEx rfl

/-- C6: Disabled short-circuit — with `disabled=True`, each of `start`,
`update` and `stop` returns immediately with an empty effect trace (no
collaborator touched, no log emitted) and leaves both the tracer and the
world unchanged. -/
theorem C6_disabled_short_circuit (t : MemoryTracer) (w : TM)
    (hd : t.disabled = true) :
    t.start w = .ok (some t, t, w, []) ∧
    t.update w = .ok (t, w, []) ∧
    t.stop w = (t, w, []) := by
  refine ⟨?_, ?_, ?_⟩ <;> simp [MemoryTracer.start, MemoryTracer.update, MemoryTracer.stop, hd]

/-- Witness for C6 at a concrete disabled tracer. -/
theorem C6_disabled_short_circuit_witness :
    tDisEx.start wEx = .ok (some tDisEx, tDisEx, wEx, []) ∧
    tDisEx.update wEx = .ok (tDisEx, wEx, []) ∧
    tDisEx.stop wEx = (tDisEx, wEx, []) :=
  C6_disabled_short_circuit tDisEx wEx rfl

/-- C10: Start return value — `start()` returns `self` only on the disabled
no-op path; a successful enabled `start()` returns `None`; and `__enter__`
(the scope-entry operation) delivers the tracer object itself whenever
`start` succeeds, regardless of `start`'s own return value. -/
theorem C10_start_return (t : MemoryTracer) (w : TM) :
    (t.disabled = true → t.start w = .ok (some t, t, w, [])) ∧
    (t.disabled = false →
      ∀ r t1 w1 effs, t.start w = .ok (r, t1, w1, effs) → r = none) ∧
    (∀ r t1 w1 effs, t.start w = .ok (r, t1, w1, effs) →
      t.enter w = .ok (t1, w1, effs)) := by
  refine ⟨?_, ?_, ?_⟩
  · intro hd
    simp [MemoryTracer.start, hd]
  · intro hd r t1 w1 effs h
    by_cases htr : w.tracing
    · simp [MemoryTracer.start, hd, htr] at h
    · simp [MemoryTracer.start, hd, htr] at h
      exact h.1.symm
  · intro r t1 w1 effs h
    simp [MemoryTracer.enter, h]

/-- Witness for C10: the disabled path returns `self`, the enabled path
returns `None`, and `__enter__` returns the started tracer. -/
theorem C10_start_return_witness :
    tDisEx.start wEx = .ok (some tDisEx, tDisEx, wEx, []) ∧
    (∀ r t1 w1 effs, tEx.start wEx = .ok (r, t1, w1, effs) → r = none) ∧
    (∀ r t1 w1 effs, tEx.start wEx = .ok (r, t1, w1, effs) →
      tEx.enter wEx = .ok (t1, w1, effs)) :=
  ⟨(C10_start_return tDisEx wEx).1 rfl,
   (C10_start_return tEx wEx).2.1 rfl,
   (C10_start_return tEx wEx).2.2⟩

/-- C5: Scoped cleanup — entering the scope runs `start`, and whenever the
scope was entered (start succeeded), `stop` runs on every exit path: even
when the body raises (`bodyErr` arbitrary, including `some e`), the final
world has the tracking facility disengaged, the snapshot fields are cleared
and the stop interaction is in the effect trace.  The body may use the
tracer freely as long as it does not toggle the `disabled` flag. -/
theorem C5_scoped_cleanup (t : MemoryTracer) (w : TM)
    (body : MemoryTracer → TM → Option PyError × MemoryTracer × TM × List Effect)
    (berr : Option PyError) (t3 : MemoryTracer) (w3 : TM) (effs : List Effect)
    (hd : t.disabled = false)
    (hbd : ∀ t1 w1, (body t1 w1).2.1.disabled = t1.disabled)
    (hres : withMemoryTracer t w body = .finished berr t3 w3 effs) :
    w3.tracing = false ∧ t3._start = none ∧ t3._prev = none ∧
    Effect.tmStop ∈ effs := by
  obtain ⟨top, trc, nf, gcc, dis, st0, pv0⟩ := t
  obtain ⟨wtr, str, idx⟩ := w
  have hd' : dis = false := hd
  subst hd'
  cases wtr with
  | true =>
    have hfail : withMemoryTracer ⟨top, trc, nf, gcc, false, st0, pv0⟩
        ⟨true, str, idx⟩ body = .startFailed .alreadyTracing := by
      simp [withMemoryTracer, MemoryTracer.enter, MemoryTracer.start]
    rw [hfail] at hres
    exact absurd hres (by simp)
  | false =>
    rcases hb : body ⟨top, trc, nf, gcc, false, some (str idx), some (str idx)⟩
        ⟨true, str, idx + 1⟩ with ⟨be, t2, w2, e2⟩
    have hd2 : t2.disabled = false := by
      have h := hbd ⟨top, trc, nf, gcc, false, some (str idx), some (str idx)⟩
        ⟨true, str, idx + 1⟩
      rw [hb] at h
      exact h
    have hw : withMemoryTracer ⟨top, trc, nf, gcc, false, st0, pv0⟩
        ⟨false, str, idx⟩ body =
        .finished be { t2 with _start := none, _prev := none }
          { w2 with tracing := false }
          ([.log .startingTracer, .tmStart nf, .tmTakeSnapshot] ++ e2 ++
            [.tmStop, .log .stoppedTracer]) := by
      simp [withMemoryTracer, MemoryTracer.enter, MemoryTracer.start,
        MemoryTracer.exitScope, MemoryTracer.stop, hb, hd2]
    rw [hw] at hres
    simp only [WithResult.finished.injEq] at hres
    obtain ⟨hbe, h3, hw3, heffs⟩ := hres
    subst h3 hw3 heffs
    exact ⟨rfl, rfl, rfl, by simp⟩

/-- Witness for C5: a concrete enabled tracer whose scope body raises
immediately; the facility is still disengaged on exit. -/
theorem C5_scoped_cleanup_witness :
    (⟨false, streamEx, 1⟩ : TM).tracing = false ∧
    (⟨2, 1, 25, true, false, none, none⟩ : MemoryTracer)._start = none ∧
    (⟨2, 1, 25, true, false, none, none⟩ : MemoryTracer)._prev = none ∧
    Effect.tmStop ∈ [Effect.log .startingTracer, .tmStart 25, .tmTakeSnapshot,
      .tmStop, .log .stoppedTracer] :=
  C5_scoped_cleanup tEx wEx bodyEx (some .notTracing)
    ⟨2, 1, 25, true, false, none, none⟩ ⟨false, streamEx, 1⟩
    [Effect.log .startingTracer, .tmStart 25, .tmTakeSnapshot,
      .tmStop, .log .stoppedTracer]
    rfl (fun _ _ => rfl) rfl

/-- The cumulative-report log of one update is in its effect trace. -/
theorem cumulative_mem_updateEffects (t : MemoryTracer) (s0 prev current : Snapshot) :
    Effect.log (.cumulativeStats (MemoryTracer._format_stats
      ((current.compare_to s0 .filename).take t.top))) ∈
      updateEffects t s0 prev current := by
  cases hgc : t.gccollect <;> simp [updateEffects, hgc]

/-- The incremental-report log of one update is in its effect trace. -/
theorem incremental_mem_updateEffects (t : MemoryTracer) (s0 prev current : Snapshot) :
    Effect.log (.incrementalStats (MemoryTracer._format_stats
      ((current.compare_to prev .lineno).take t.top))) ∈
      updateEffects t s0 prev current := by
  cases hgc : t.gccollect <;> simp [updateEffects, hgc]

/-- C1: Baseline stability — starting from any enabled tracing state whose
baseline is `s0`, every one of `N` consecutive `update()` calls succeeds and
logs a cumulative report diffing the snapshot taken in that call against
`s0` at file granularity; after all `N` updates the `_start` field still
holds `s0` (update never touches it), while `stop` afterwards clears it. -/
theorem C1_baseline_stability (t : MemoryTracer) (w : TM)
    (s0 prev : Snapshot) (N : Nat)
    (hd : t.disabled = false) (htr : w.tracing = true)
    (hs : t._start = some s0) (hp : t._prev = some prev) :
    ∃ tN wN effss,
      runUpdates N t w = .ok (tN, wN, effss) ∧
      tN._start = some s0 ∧
      (tN.stop wN).1._start = none ∧
      ∀ k, k < N → ∃ effs, effss[k]? = some effs ∧
        Effect.log (.cumulativeStats (MemoryTracer._format_stats
          ((Snapshot.compare_to (w.snapStream (w.snapIdx + k)) s0
            .filename).take t.top))) ∈ effs := by
  obtain ⟨tN, wN, effss, hrun, htop, htrc, hnf, hgc, hdN, hsN, hpN, htrN,
      hstream, hidx, hlen, heff⟩ := runUpdates_spec N t w s0 prev hd htr hs hp
  refine ⟨tN, wN, effss, hrun, hsN, ?_, ?_⟩
  · simp [MemoryTracer.stop, hdN]
  · intro k hk
    refine ⟨_, heff k hk, ?_⟩
    have h := cumulative_mem_updateEffects t s0
      (if k = 0 then prev else w.snapStream (w.snapIdx + k - 1))
      (w.snapStream (w.snapIdx + k))
    simpa [htop] using h

/-- Witness for C1: two updates on a concrete started tracer. -/
theorem C1_baseline_stability_witness :
    ∃ tN wN effss,
      runUpdates 2 t1Ex w1Ex = .ok (tN, wN, effss) ∧
      tN._start = some snapEx ∧
      (tN.stop wN).1._start = none ∧
      ∀ k, k < 2 → ∃ effs, effss[k]? = some effs ∧
        Effect.log (.cumulativeStats (MemoryTracer._format_stats
          ((Snapshot.compare_to (w1Ex.snapStream (w1Ex.snapIdx + k)) snapEx
            .filename).take t1Ex.top))) ∈ effs :=
  C1_baseline_stability t1Ex w1Ex snapEx snapEx 2 rfl rfl rfl rfl

/-- C2: Incremental chaining — starting right after `start` (so `_prev`
equals the baseline `s0`), the `k`-th of `N` consecutive `update()` calls
logs an incremental report diffing the snapshot taken in that call against
the snapshot of the `(k-1)`-th call — the baseline for `k = 0` — at
file+line granularity; after the calls, `_prev` holds the last snapshot
taken, and in general every single successful enabled `update` reassigns
`_prev` to the snapshot it just took. -/
theorem C2_incremental_chaining (t : MemoryTracer) (w : TM)
    (s0 : Snapshot) (N : Nat)
    (hd : t.disabled = false) (htr : w.tracing = true)
    (hs : t._start = some s0) (hp : t._prev = some s0) :
    ∃ tN wN effss,
      runUpdates N t w = .ok (tN, wN, effss) ∧
      (∀ k, k < N → ∃ effs, effss[k]? = some effs ∧
        Effect.log (.incrementalStats (MemoryTracer._format_stats
          ((Snapshot.compare_to (w.snapStream (w.snapIdx + k))
            (if k = 0 then s0 else w.snapStream (w.snapIdx + k - 1))
            .lineno).take t.top))) ∈ effs) ∧
      (0 < N → tN._prev = some (w.snapStream (w.snapIdx + N - 1))) ∧
      (∀ (t1 : MemoryTracer) (w1 : TM) (a b : Snapshot),
        t1.disabled = false → w1.tracing = true →
        t1._start = some a → t1._prev = some b →
        ∃ t2 w2 effs2, t1.update w1 = .ok (t2, w2, effs2) ∧
          t2._prev = some (w1.snapStream w1.snapIdx)) := by
  obtain ⟨tN, wN, effss, hrun, htop, htrc, hnf, hgc, hdN, hsN, hpN, htrN,
      hstream, hidx, hlen, heff⟩ := runUpdates_spec N t w s0 s0 hd htr hs hp
  refine ⟨tN, wN, effss, hrun, ?_, ?_, ?_⟩
  · intro k hk
    refine ⟨_, heff k hk, ?_⟩
    have h := incremental_mem_updateEffects t s0
      (if k = 0 then s0 else w.snapStream (w.snapIdx + k - 1))
      (w.snapStream (w.snapIdx + k))
    simpa [htop] using h
  · intro hN
    rw [hpN, if_neg (by omega : ¬ N = 0)]
  · intro t1 w1 a b hd1 htr1 hs1 hp1
    exact ⟨_, _, _, MemoryTracer.update_spec t1 w1 a b hd1 htr1 hs1 hp1, rfl⟩

/-- Witness for C2: two updates on a concrete started tracer. -/
theorem C2_incremental_chaining_witness :
    ∃ tN wN effss,
      runUpdates 2 t1Ex w1Ex = .ok (tN, wN, effss) ∧
      (∀ k, k < 2 → ∃ effs, effss[k]? = some effs ∧
        Effect.log (.incrementalStats (MemoryTracer._format_stats
          ((Snapshot.compare_to (w1Ex.snapStream (w1Ex.snapIdx + k))
            (if k = 0 then snapEx else w1Ex.snapStream (w1Ex.snapIdx + k - 1))
            .lineno).take t1Ex.top))) ∈ effs) ∧
      (0 < 2 → tN._prev = some (w1Ex.snapStream (w1Ex.snapIdx + 2 - 1))) ∧
      (∀ (t1 : MemoryTracer) (w1 : TM) (a b : Snapshot),
        t1.disabled = false → w1.tracing = true →
        t1._start = some a → t1._prev = some b →
        ∃ t2 w2 effs2, t1.update w1 = .ok (t2, w2, effs2) ∧
          t2._prev = some (w1.snapStream w1.snapIdx)) :=
  C2_incremental_chaining t1Ex w1Ex snapEx 2 rfl rfl rfl rfl

/-- C8: GC-before-snapshot ordering — in every one of `N` consecutive
enabled `update()` calls, when `gccollect` is set the effect trace begins
with the garbage-collector call immediately followed by the snapshot
(so the snapshot is only taken after `collect()` returned), and when
`gccollect` is unset the garbage collector is never invoked. -/
theorem C8_gc_before_snapshot (t : MemoryTracer) (w : TM)
    (s0 prev : Snapshot) (N : Nat)
    (hd : t.disabled = false) (htr : w.tracing = true)
    (hs : t._start = some s0) (hp : t._prev = some prev) :
    ∃ tN wN effss,
      runUpdates N t w = .ok (tN, wN, effss) ∧
      ∀ k, k < N → ∃ effs, effss[k]? = some effs ∧
        (t.gccollect = true →
          ∃ rest, effs = Effect.gcCollect :: Effect.tmTakeSnapshot :: rest) ∧
        (t.gccollect = false → Effect.gcCollect ∉ effs) := by
  obtain ⟨tN, wN, effss, hrun, htop, htrc, hnf, hgc, hdN, hsN, hpN, htrN,
      hstream, hidx, hlen, heff⟩ := runUpdates_spec N t w s0 prev hd htr hs hp
  refine ⟨tN, wN, effss, hrun, ?_⟩
  intro k hk
  refine ⟨_, heff k hk, ?_, ?_⟩
  · intro hgct
    refine ⟨Effect.log (.cumulativeStats (MemoryTracer._format_stats
        ((Snapshot.compare_to (w.snapStream (w.snapIdx + k)) s0
          .filename).take t.top))) ::
      Effect.log (.incrementalStats (MemoryTracer._format_stats
        ((Snapshot.compare_to (w.snapStream (w.snapIdx + k))
          (if k = 0 then prev else w.snapStream (w.snapIdx + k - 1))
          .lineno).take t.top))) ::
      Effect.log (.currentStats (MemoryTracer._format_stats
        (((w.snapStream (w.snapIdx + k)).statistics .filename).take t.top))) ::
      (((w.snapStream (w.snapIdx + k)).statistics .traceback).take t.trace).map
        (fun st => Effect.log (.traceReport st.count (formatSizeKiB st.size)
          (attrFrames st.attr))), ?_⟩
    simp [updateEffects, hgct]
  · intro hgcf
    simp [updateEffects, hgcf]
    intro hmem
    obtain ⟨st, -, hst⟩ := List.mem_map.mp (List.take_subset _ _ hmem)
    exact Effect.noConfusion hst

/-- Witness for C8: both branches at concrete tracers (one update each). -/
theorem C8_gc_before_snapshot_witness :
    (∃ tN wN effss,
      runUpdates 1 t1Ex w1Ex = .ok (tN, wN, effss) ∧
      ∀ k, k < 1 → ∃ effs, effss[k]? = some effs ∧
        (t1Ex.gccollect = true →
          ∃ rest, effs = Effect.gcCollect :: Effect.tmTakeSnapshot :: rest) ∧
        (t1Ex.gccollect = false → Effect.gcCollect ∉ effs)) ∧
    (∃ tN wN effss,
      runUpdates 1 tNoGcEx w1Ex = .ok (tN, wN, effss) ∧
      ∀ k, k < 1 → ∃ effs, effss[k]? = some effs ∧
        (tNoGcEx.gccollect = true →
          ∃ rest, effs = Effect.gcCollect :: Effect.tmTakeSnapshot :: rest) ∧
        (tNoGcEx.gccollect = false → Effect.gcCollect ∉ effs)) :=
  ⟨C8_gc_before_snapshot t1Ex w1Ex snapEx snapEx 1 rfl rfl rfl rfl,
   C8_gc_before_snapshot tNoGcEx w1Ex snapEx snapEx 1 rfl rfl rfl rfl⟩

/-- Whether an effect is one of the detailed per-call-stack log reports. -/
def Effect.isDetailedReport : Effect → Bool
  | .log (.traceReport _ _ _) => true
  | _ => false

/-- The method `_format_stats` preserves the number of rows. -/
theorem _format_stats_length (stats : List α) :
    (MemoryTracer._format_stats stats).length = stats.length := by
  simp [MemoryTracer._format_stats, List.enumFrom_length]

/-- Any cumulative report logged by an update carries exactly the rows of
the truncated baseline diff. -/
theorem cumulativeStats_rows_of_mem (t : MemoryTracer) (s0 prev current : Snapshot)
    (rows : List (Nat × StatDiff))
    (h : Effect.log (.cumulativeStats rows) ∈ updateEffects t s0 prev current) :
    rows = MemoryTracer._format_stats ((current.compare_to s0 .filename).take t.top) := by
  cases hgc : t.gccollect <;>
  · simp [updateEffects, hgc] at h
    rcases h with h | h
    · exact h
    · obtain ⟨st, -, hst⟩ := List.mem_map.mp (List.take_subset _ _ h)
      simp at hst

/-- Any incremental report logged by an update carries exactly the rows of
the truncated previous-snapshot diff. -/
theorem incrementalStats_rows_of_mem (t : MemoryTracer) (s0 prev current : Snapshot)
    (rows : List (Nat × StatDiff))
    (h : Effect.log (.incrementalStats rows) ∈ updateEffects t s0 prev current) :
    rows = MemoryTracer._format_stats ((current.compare_to prev .lineno).take t.top) := by
  cases hgc : t.gccollect <;>
  · simp [updateEffects, hgc] at h
    rcases h with h | h
    · exact h
    · obtain ⟨st, -, hst⟩ := List.mem_map.mp (List.take_subset _ _ h)
      simp at hst

/-- Any current-state report logged by an update carries exactly the rows of
the truncated current statistics. -/
theorem currentStats_rows_of_mem (t : MemoryTracer) (s0 prev current : Snapshot)
    (rows : List (Nat × Statistic))
    (h : Effect.log (.currentStats rows) ∈ updateEffects t s0 prev current) :
    rows = MemoryTracer._format_stats ((current.statistics .filename).take t.top) := by
  cases hgc : t.gccollect <;>
  · simp [updateEffects, hgc] at h
    rcases h with h | h
    · exact h
    · obtain ⟨st, -, hst⟩ := List.mem_map.mp (List.take_subset _ _ h)
      simp at hst

/-- The number of detailed per-call-stack reports emitted by one update. -/
theorem updateEffects_countP_detailed (t : MemoryTracer) (s0 prev current : Snapshot) :
    (updateEffects t s0 prev current).countP Effect.isDetailedReport =
      ((current.statistics .traceback).take t.trace).length := by
  have hmap : ∀ l : List Statistic,
      (l.map (fun st => Effect.log (.traceReport st.count (formatSizeKiB st.size)
        (attrFrames st.attr)))).countP Effect.isDetailedReport = l.length := by
    intro l
    induction l with
    | nil => rfl
    | cons a l ih =>
      rw [List.map_cons, List.countP_cons, ih]
      rfl
  cases hgc : t.gccollect <;>
  · simp [updateEffects, hgc, List.countP_append, List.countP_cons,
      Effect.isDetailedReport]
    rw [← List.map_take, hmap, List.length_take]

/-- The detailed reports emitted by one update, in order: one per statistic
of the truncated traceback-grouped statistics of the current snapshot. -/
theorem updateEffects_filter_detailed (t : MemoryTracer) (s0 prev current : Snapshot) :
    (updateEffects t s0 prev current).filter Effect.isDetailedReport =
      ((current.statistics .traceback).take t.trace).map
        (fun st => Effect.log (.traceReport st.count (formatSizeKiB st.size)
          (attrFrames st.attr))) := by
  cases hgc : t.gccollect <;>
  · simp [updateEffects, hgc, List.filter_append, List.filter_cons,
      Effect.isDetailedReport]
    intro a ha
    obtain ⟨st, -, hst⟩ := List.mem_map.mp (List.take_subset _ _ ha)
    subst hst
    rfl

/-- C7: Row truncation — in every one of `N` consecutive enabled `update()`
calls, each of the three emitted reports (cumulative, incremental,
current-state) carries at most `top` rows, and at most `trace` detailed
per-call-stack reports are emitted, for arbitrary snapshots served by the
facility (in particular when it returns more rows than these limits). -/
theorem C7_row_truncation (t : MemoryTracer) (w : TM)
    (s0 prev : Snapshot) (N : Nat)
    (hd : t.disabled = false) (htr : w.tracing = true)
    (hs : t._start = some s0) (hp : t._prev = some prev) :
    ∃ tN wN effss,
      runUpdates N t w = .ok (tN, wN, effss) ∧
      ∀ k, k < N → ∃ effs, effss[k]? = some effs ∧
        (∀ rows, Effect.log (.cumulativeStats rows) ∈ effs →
          rows.length ≤ t.top) ∧
        (∀ rows, Effect.log (.incrementalStats rows) ∈ effs →
          rows.length ≤ t.top) ∧
        (∀ rows, Effect.log (.currentStats rows) ∈ effs →
          rows.length ≤ t.top) ∧
        effs.countP Effect.isDetailedReport ≤ t.trace := by
  obtain ⟨tN, wN, effss, hrun, htop, htrc, hnf, hgc, hdN, hsN, hpN, htrN,
      hstream, hidx, hlen, heff⟩ := runUpdates_spec N t w s0 prev hd htr hs hp
  refine ⟨tN, wN, effss, hrun, ?_⟩
  intro k hk
  refine ⟨_, heff k hk, ?_, ?_, ?_, ?_⟩
  · intro rows hmem
    rw [cumulativeStats_rows_of_mem t s0 _ _ rows hmem, _format_stats_length,
      List.length_take]
    omega
  · intro rows hmem
    rw [incrementalStats_rows_of_mem t s0 _ _ rows hmem, _format_stats_length,
      List.length_take]
    omega
  · intro rows hmem
    rw [currentStats_rows_of_mem t s0 _ _ rows hmem, _format_stats_length,
      List.length_take]
    omega
  · rw [updateEffects_countP_detailed, List.length_take]
    omega

/-- Witness for C7: one update with `top=2, trace=1` on snapshots whose
statistics have more rows than the limits would otherwise allow. -/
theorem C7_row_truncation_witness :
    ∃ tN wN effss,
      runUpdates 1 t1Ex w1Ex = .ok (tN, wN, effss) ∧
      ∀ k, k < 1 → ∃ effs, effss[k]? = some effs ∧
        (∀ rows, Effect.log (.cumulativeStats rows) ∈ effs →
          rows.length ≤ t1Ex.top) ∧
        (∀ rows, Effect.log (.incrementalStats rows) ∈ effs →
          rows.length ≤ t1Ex.top) ∧
        (∀ rows, Effect.log (.currentStats rows) ∈ effs →
          rows.length ≤ t1Ex.top) ∧
        effs.countP Effect.isDetailedReport ≤ t1Ex.trace :=
  C7_row_truncation t1Ex w1Ex snapEx snapEx 1 rfl rfl rfl rfl

/-- C9: Detailed traceback reports — in every one of `N` consecutive enabled
`update()` calls, the detailed reports emitted are exactly one per statistic
of the first `trace` rows of the current snapshot's traceback-grouped
statistics (which are sorted by descending size, so these are the largest
sites), each carrying the site's live allocation count, its live size in
kibibytes with one decimal place (`formatSizeKiB`, the rendering of
`"%.1f" % (size / 1024)`), and the site's call-stack frames. -/
theorem C9_detailed_traceback_reports (t : MemoryTracer) (w : TM)
    (s0 prev : Snapshot) (N : Nat)
    (hd : t.disabled = false) (htr : w.tracing = true)
    (hs : t._start = some s0) (hp : t._prev = some prev) :
    ∃ tN wN effss,
      runUpdates N t w = .ok (tN, wN, effss) ∧
      ∀ k, k < N → ∃ effs, effss[k]? = some effs ∧
        effs.filter Effect.isDetailedReport =
          (((w.snapStream (w.snapIdx + k)).statistics .traceback).take
            t.trace).map (fun st => Effect.log (.traceReport st.count
              (formatSizeKiB st.size) (attrFrames st.attr))) ∧
        ((w.snapStream (w.snapIdx + k)).statistics .traceback).Sorted
          (fun a b => b.size ≤ a.size) := by
  obtain ⟨tN, wN, effss, hrun, htop, htrc, hnf, hgc, hdN, hsN, hpN, htrN,
      hstream, hidx, hlen, heff⟩ := runUpdates_spec N t w s0 prev hd htr hs hp
  refine ⟨tN, wN, effss, hrun, ?_⟩
  intro k hk
  exact ⟨_, heff k hk, updateEffects_filter_detailed t s0 _ _,
    Snapshot.statistics_sorted _ _⟩

/-- Witness for C9: one update on a concrete started tracer. -/
theorem C9_detailed_traceback_reports_witness :
    ∃ tN wN effss,
      runUpdates 1 t1Ex w1Ex = .ok (tN, wN, effss) ∧
      ∀ k, k < 1 → ∃ effs, effss[k]? = some effs ∧
        effs.filter Effect.isDetailedReport =
          (((w1Ex.snapStream (w1Ex.snapIdx + k)).statistics .traceback).take
            t1Ex.trace).map (fun st => Effect.log (.traceReport st.count
              (formatSizeKiB st.size) (attrFrames st.attr))) ∧
        ((w1Ex.snapStream (w1Ex.snapIdx + k)).statistics .traceback).Sorted
          (fun a b => b.size ≤ a.size) :=
  C9_detailed_traceback_reports t1Ex w1Ex snapEx snapEx 1 rfl rfl rfl rfl
